import Mathlib

/-!
Verification of systemd's drop-in path resolution (`src/shared/dropin.c`).

A shallow embedding of the drop-in ("override fragment") path builder and
resolver from `src/shared/dropin.c`, together with theorems settling the
specification claims about it.

C byte strings are modelled as `List Char` (each character a byte, i.e.
`c.toNat < 256` where it matters).  Filesystem-touching collaborators
(`chase_symlinks`, `conf_files_list_strv`, `mkdir_p`,
`write_string_file_atomic_label`) are modelled as oracle parameters, since
their behaviour depends on the filesystem, not on this translation unit.
Allocation failures (`-ENOMEM` paths in the C code) are not representable:
in the embedding allocation always succeeds.
-/

/-- C byte strings, modelled as lists of characters. -/
abbrev Str : Type := List Char

/-- Convert a Lean string literal to the `Str` model. -/
def str (s : String) : Str := s.data

/-- The errno value `EINVAL` (invalid argument). -/
def EINVAL : Int := 22

/-- The constant `FILENAME_MAX`, the maximum filename length accepted by
`filename_is_valid` (4096 on Linux/glibc). -/
def FILENAME_MAX : Nat := 4096

/-- Lowercase hex digit for a nibble, as C's `hexchar`. -/
def hexchar (n : Nat) : Char :=
  if n < 10 then Char.ofNat (48 + n) else Char.ofNat (87 + n)

/-- Inverse of `hexchar`: decode one hex digit (accepting both cases). -/
def unhexchar (c : Char) : Option Nat :=
  if 48 ≤ c.toNat ∧ c.toNat ≤ 57 then some (c.toNat - 48)
  else if 97 ≤ c.toNat ∧ c.toNat ≤ 102 then some (c.toNat - 87)
  else if 65 ≤ c.toNat ∧ c.toNat ≤ 70 then some (c.toNat - 55)
  else none

/-- Modelled from the spec: the escaping predicate of `xescape`
(`escape.h`, not in `src/`).  A character is escaped when it is in the
`bad` set, is the escape character backslash itself, or is a
non-printable byte. -/
def needsEscape (bad : Str) (c : Char) : Bool :=
  decide (c ∈ bad) || decide (c = '\\') || decide (c.toNat < 32) ||
    decide (127 ≤ c.toNat)

/-- Modelled from the spec: `xescape` (`escape.h`, not in `src/`), the
"reversible escaping scheme" used on fragment names.  Each character that
`needsEscape` flags is replaced by a backslash-x-HH hex escape; all other
characters are copied verbatim. -/
def xescape : Str → Str → Str
  | [], _ => []
  | c :: cs, bad =>
      (if needsEscape bad c then
        ['\\', 'x', hexchar (c.toNat / 16), hexchar (c.toNat % 16)]
      else [c]) ++ xescape cs bad

/-- Modelled from the spec: the inverse of the reversible escaping scheme
(systemd's `cunescape`-style decoder restricted to the escapes `xescape`
emits).  Decodes backslash-x-HH sequences and copies everything else. -/
def xunescape : Str → Option Str
  | [] => some []
  | c :: cs =>
      if c = '\\' then
        match cs with
        | x :: h1 :: h2 :: rest =>
            if x = 'x' then
              match unhexchar h1, unhexchar h2, xunescape rest with
              | some a, some b, some r => some (Char.ofNat (16 * a + b) :: r)
              | _, _, _ => none
            else none
        | _ => none
      else
        match xunescape cs with
        | some r => some (c :: r)
        | none => none

/-- Modelled from the spec: `filename_is_valid` (`path-util.h`, not in
`src/`): a filename component is valid unless it is empty, `"."`, `".."`,
contains a path separator, or is over-long. -/
def filename_is_valid (s : Str) : Bool :=
  decide (s ≠ []) && decide (s ≠ ['.']) && decide (s ≠ ['.', '.']) &&
    decide ('/' ∉ s) && decide (s.length ≤ FILENAME_MAX)

/-- Function `drop_in_file` from `dropin.c`: build the containing-directory path
`dir/unit.d` and the fragment path `dir/unit.d/level-escapedName.conf`.
The decimal rendering of `level` mirrors `sprintf(prefix, "%u", level)`;
the `-ENOMEM` branches of the C code are not representable here because
allocation always succeeds. -/
def drop_in_file (dir unit : Str) (level : Nat) (name : Str) :
    Except Int (Str × Str) :=
  let levelStr : Str := (Nat.repr level).data
  let b := xescape name (str "/.")
  if filename_is_valid b then
    let p := dir ++ str "/" ++ unit ++ str ".d"
    let q := p ++ str "/" ++ levelStr ++ str "-" ++ b ++ str ".conf"
    Except.ok (p, q)
  else
    Except.error (-EINVAL)

/-- Function `write_drop_in` from `dropin.c`.  `mkdir_p` and
`write_string_file_atomic_label` are filesystem collaborators, passed as
oracles returning their C result codes.  The result of `mkdir_p` is
discarded (`(void) mkdir_p(p, 0755)` in the source). -/
def write_drop_in (mkdir_p : Str → Int)
    (write_string_file_atomic_label : Str → Str → Int)
    (dir unit : Str) (level : Nat) (name data : Str) : Int :=
  match drop_in_file dir unit level name with
  | Except.error e => e
  | Except.ok (p, q) =>
      let _ := mkdir_p p
      write_string_file_atomic_label q data

/-- Split a string at its last `'.'`: returns `(before, after)` with
`s = before ++ '.' :: after` and no `'.'` in `after`; `none` when the
string has no dot.  Helper for the spec-modelled unit-name functions. -/
def splitLastDot : Str → Option (Str × Str)
  | [] => none
  | c :: cs =>
      match splitLastDot cs with
      | some (b, a) => some (c :: b, a)
      | none => if c = '.' then some ([], cs) else none

/-- Split a string at its first `'@'`: returns `(before, after)` with
`s = before ++ '@' :: after` and no `'@'` in `before`; `none` when the
string has no at-sign. -/
def splitFirstAt : Str → Option (Str × Str)
  | [] => none
  | c :: cs =>
      if c = '@' then some ([], cs)
      else
        match splitFirstAt cs with
        | some (p, r) => some (c :: p, r)
        | none => none

/-- Modelled from the spec: `unit_name_is_valid(name, UNIT_NAME_INSTANCE)`
(`unit-name.h`, not in `src/`).  A unit name is a valid *instance* name
when it has the form `template@instance.suffix`: there is a last dot, a
first at-sign before it, a non-empty part before the at-sign and a
non-empty instance part between the at-sign and the last dot. -/
def unit_name_is_instance (n : Str) : Bool :=
  match splitLastDot n with
  | none => false
  | some (b, _a) =>
      match splitFirstAt b with
      | none => false
      | some (p, i) => decide (p ≠ []) && decide (i ≠ [])

/-- Modelled from the spec: `unit_name_template` (`unit-name.h`, not in
`src/`), the instance-to-template transform: strip the instance part,
keeping everything up to and including the first `'@'` and the suffix
from the last `'.'` on. -/
def unit_name_template (n : Str) : Option Str :=
  match splitFirstAt n with
  | none => none
  | some (p, _) =>
      match splitLastDot n with
      | none => none
      | some (_, a) => some (p ++ '@' :: '.' :: a)

theorem splitLastDot_eq_none {a : Str} (h : splitLastDot a = none) :
    '.' ∉ a := by
  induction a with
  | nil => simp
  | cons c cs ih =>
      simp only [splitLastDot] at h
      split at h
      · simp at h
      · next heq =>
          split at h
          · simp at h
          · next hc =>
              simp only [List.mem_cons, not_or]
              exact ⟨fun e => hc e.symm, ih heq⟩

theorem splitLastDot_none_of_not_mem {a : Str} (h : '.' ∉ a) :
    splitLastDot a = none := by
  induction a with
  | nil => rfl
  | cons c cs ih =>
      simp only [List.mem_cons, not_or] at h
      obtain ⟨hc, hcs⟩ := h
      simp only [splitLastDot]
      rw [ih hcs]
      show (if c = '.' then some (([] : Str), cs) else none) = none
      rw [if_neg (fun e => hc e.symm)]

theorem splitLastDot_append {x a : Str} (h : '.' ∉ a) :
    splitLastDot (x ++ '.' :: a) = some (x, a) := by
  induction x with
  | nil =>
      show splitLastDot ('.' :: a) = some ([], a)
      simp only [splitLastDot]
      rw [splitLastDot_none_of_not_mem h]
      simp
  | cons c cs ih =>
      show splitLastDot (c :: (cs ++ '.' :: a)) = some (c :: cs, a)
      simp only [splitLastDot]
      rw [ih]

theorem splitLastDot_sound {n b a : Str} (h : splitLastDot n = some (b, a)) :
    n = b ++ '.' :: a ∧ '.' ∉ a := by
  induction n generalizing b a with
  | nil => simp [splitLastDot] at h
  | cons c cs ih =>
      simp only [splitLastDot] at h
      split at h
      · next b' a' heq =>
          simp only [Option.some.injEq, Prod.mk.injEq] at h
          obtain ⟨h1, h2⟩ := h
          obtain ⟨ihn, iha⟩ := ih heq
          subst h2
          constructor
          · rw [← h1, ihn]; rfl
          · exact iha
      · next heq =>
          split at h
          · next hc =>
              simp only [Option.some.injEq, Prod.mk.injEq] at h
              obtain ⟨h1, h2⟩ := h
              subst h2
              constructor
              · rw [← h1, hc]; rfl
              · exact splitLastDot_eq_none heq
          · simp at h

theorem splitFirstAt_append {p rest : Str} (h : '@' ∉ p) :
    splitFirstAt (p ++ '@' :: rest) = some (p, rest) := by
  induction p with
  | nil => simp [splitFirstAt]
  | cons c cs ih =>
      simp only [List.mem_cons, not_or] at h
      obtain ⟨hc, hcs⟩ := h
      show splitFirstAt (c :: (cs ++ '@' :: rest)) = some (c :: cs, rest)
      simp only [splitFirstAt]
      rw [if_neg (fun e => hc e.symm), ih hcs]

theorem splitFirstAt_sound {n p r : Str} (h : splitFirstAt n = some (p, r)) :
    n = p ++ '@' :: r ∧ '@' ∉ p := by
  induction n generalizing p r with
  | nil => simp [splitFirstAt] at h
  | cons c cs ih =>
      simp only [splitFirstAt] at h
      split at h
      · next hc =>
          simp only [Option.some.injEq, Prod.mk.injEq] at h
          obtain ⟨h1, h2⟩ := h
          subst h2
          constructor
          · rw [← h1, hc]; rfl
          · rw [← h1]; simp
      · next hc =>
          split at h
          · next p' r' heq =>
              simp only [Option.some.injEq, Prod.mk.injEq] at h
              obtain ⟨h1, h2⟩ := h
              obtain ⟨ihn, ihp⟩ := ih heq
              subst h2
              constructor
              · rw [← h1, ihn]; rfl
              · rw [← h1]
                simp only [List.mem_cons, not_or]
                exact ⟨fun e => hc e.symm, ihp⟩
          · simp at h

/-- Structure of a valid instance name: `n = p ++ '@' :: i ++ '.' :: a`
with `'@' ∉ p`, `'.' ∉ a`, `p ≠ []`, `i ≠ []`. -/
theorem instance_structure {n : Str} (h : unit_name_is_instance n = true) :
    ∃ p i a, n = p ++ '@' :: (i ++ '.' :: a) ∧ '@' ∉ p ∧ '.' ∉ a ∧
      p ≠ [] ∧ i ≠ [] := by
  unfold unit_name_is_instance at h
  split at h
  · simp at h
  · next b a hn =>
      split at h
      · simp at h
      · next p i hb =>
          simp only [Bool.and_eq_true, decide_eq_true_eq] at h
          obtain ⟨hp, hi⟩ := h
          obtain ⟨hnb, ha⟩ := splitLastDot_sound hn
          obtain ⟨hbp, hap⟩ := splitFirstAt_sound hb
          refine ⟨p, i, a, ?_, hap, ha, hp, hi⟩
          rw [hnb, hbp]
          simp

/-- For a valid instance name the template transform succeeds and yields
the name with the instance part stripped. -/
theorem template_of_instance {n : Str} (h : unit_name_is_instance n = true) :
    ∃ p i a, n = p ++ '@' :: (i ++ '.' :: a) ∧ '@' ∉ p ∧ '.' ∉ a ∧
      p ≠ [] ∧ i ≠ [] ∧ unit_name_template n = some (p ++ '@' :: '.' :: a) := by
  obtain ⟨p, i, a, hn, hap, ha, hp, hi⟩ := instance_structure h
  refine ⟨p, i, a, hn, hap, ha, hp, hi, ?_⟩
  have hfa : splitFirstAt n = some (p, i ++ '.' :: a) := by
    rw [hn]; exact splitFirstAt_append hap
  have hld : splitLastDot n = some (p ++ '@' :: i, a) := by
    rw [hn]
    rw [show p ++ '@' :: (i ++ '.' :: a) = (p ++ '@' :: i) ++ '.' :: a from by simp]
    exact splitLastDot_append ha
  unfold unit_name_template
  rw [hfa, hld]

/-- A template name derived from an instance name is never itself a valid
instance name (its instance part is empty). -/
theorem template_not_instance {n t : Str}
    (h : unit_name_is_instance n = true)
    (ht : unit_name_template n = some t) :
    unit_name_is_instance t = false := by
  obtain ⟨p, i, a, hn, hap, ha, hp, hi, htm⟩ := template_of_instance h
  rw [htm] at ht
  cases ht
  have hld : splitLastDot (p ++ '@' :: '.' :: a) = some (p ++ ['@'], a) := by
    rw [show p ++ '@' :: '.' :: a = (p ++ ['@']) ++ '.' :: a from by simp]
    exact splitLastDot_append ha
  have hfa : splitFirstAt (p ++ ['@']) = some (p, []) := by
    rw [show p ++ ['@'] = p ++ '@' :: ([] : Str) from rfl]
    exact splitFirstAt_append hap
  unfold unit_name_is_instance
  rw [hld]
  show (match splitFirstAt (p ++ ['@']) with
    | none => false
    | some (p, i) => decide (p ≠ []) && decide (i ≠ [])) = false
  rw [hfa]
  simp

/-- For a valid instance name, `unit_name_template` succeeds. -/
theorem instance_template_some {n : Str}
    (h : unit_name_is_instance n = true) :
    ∃ t, unit_name_template n = some t := by
  obtain ⟨p, i, a, _, _, _, _, _, htm⟩ := template_of_instance h
  exact ⟨_, htm⟩

/-- Severity of a log line emitted during resolution. -/
inductive LogLevel : Type
  | debug
  | warning
  | error
deriving DecidableEq

/-- Outcome of the symlink-resolving canonicalizer `chase_symlinks`
(`fs-util.h`, a filesystem collaborator): the canonical path on success,
or one of the error classes `dropin.c` distinguishes. -/
inductive ChaseResult : Type
  | found (canonical : Str)
  | enoent
  | enametoolong
  | otherError (code : Int)
deriving DecidableEq

/-- State threaded through one resolution call: the `dirs` strv being
built, the log lines emitted so far, and (instrumentation) the list of
paths handed to the canonicalizer, used to state which existence checks
were actually performed. -/
structure ResolveState : Type where
  dirs : List Str
  logs : List (LogLevel × Str)
  chased : List Str
deriving DecidableEq

/-- The empty state at the start of a resolution call. -/
def initState : ResolveState := ⟨[], [], []⟩

/-- The cache test of `unit_file_find_dirs`:
`!unit_path_cache || set_get(unit_path_cache, path)`.  The optional
`Set*` is modelled as `Option (List Str)`. -/
def cacheAllows (unit_path_cache : Option (List Str)) (path : Str) : Bool :=
  match unit_path_cache with
  | none => true
  | some cache => decide (path ∈ cache)

/-- Function `unit_file_find_dir` from `dropin.c`.  `chase` is the
`chase_symlinks` oracle (path, then `original_root`).  `-ENOENT` is
ignored silently; `-ENAMETOOLONG` is ignored with a debug log; any other
canonicalization error is logged as a warning and returned; on success
the canonicalized path is pushed onto `dirs`.  The `strv_push` `-ENOMEM`
branch is not representable (allocation always succeeds). -/
def unit_file_find_dir (chase : Str → Str → ChaseResult)
    (original_root path : Str) (st : ResolveState) :
    ResolveState × Option Int :=
  let st1 := { st with chased := st.chased ++ [path] }
  match chase path original_root with
  | ChaseResult.found c => ({ st1 with dirs := st1.dirs ++ [c] }, none)
  | ChaseResult.enoent => (st1, none)
  | ChaseResult.enametoolong =>
      ({ st1 with logs := st1.logs ++ [(LogLevel.debug, path)] }, none)
  | ChaseResult.otherError e =>
      ({ st1 with logs := st1.logs ++ [(LogLevel.warning, path)] }, some e)

/-- Function `unit_file_find_dirs` from `dropin.c`: build the candidate path
`unit_path/name<suffix>`, check it (honouring the cache), and when `name`
is a valid instance name recurse once with the template name.  Failure of
`unit_name_template` (impossible for a valid instance name) is logged at
error severity and returned as `-EINVAL`. -/
def unit_file_find_dirs (chase : Str → Str → ChaseResult)
    (original_root : Str) (unit_path_cache : Option (List Str))
    (unit_path name suffix : Str) (st : ResolveState) :
    ResolveState × Option Int :=
  let path := unit_path ++ str "/" ++ name ++ suffix
  let step :=
    if cacheAllows unit_path_cache path then
      unit_file_find_dir chase original_root path st
    else (st, none)
  match step with
  | (st1, some e) => (st1, some e)
  | (st1, none) =>
      if hinst : unit_name_is_instance name = true then
        match htmpl : unit_name_template name with
        | some template =>
            unit_file_find_dirs chase original_root unit_path_cache
              unit_path template suffix st1
        | none =>
            ({ st1 with logs := st1.logs ++ [(LogLevel.error, name)] },
              some (-EINVAL))
      else (st1, none)
termination_by (if unit_name_is_instance name then 1 else 0)
decreasing_by
  simp only [hinst, template_not_instance hinst htmpl]
  simp

/-- Variant of `unit_file_find_dirs` with an explicit recursion-depth bound: a
structurally recursive variant used to show the instance-to-template
recursion never needs depth greater than 2. -/
def unit_file_find_dirs_bounded (chase : Str → Str → ChaseResult)
    (original_root : Str) (unit_path_cache : Option (List Str))
    (unit_path : Str) :
    Nat → Str → Str → ResolveState → ResolveState × Option Int
  | 0, _, _, st => (st, none)
  | fuel + 1, name, suffix, st =>
      let path := unit_path ++ str "/" ++ name ++ suffix
      let step :=
        if cacheAllows unit_path_cache path then
          unit_file_find_dir chase original_root path st
        else (st, none)
      match step with
      | (st1, some e) => (st1, some e)
      | (st1, none) =>
          if unit_name_is_instance name = true then
            match unit_name_template name with
            | some template =>
                unit_file_find_dirs_bounded chase original_root
                  unit_path_cache unit_path fuel template suffix st1
            | none =>
                ({ st1 with logs := st1.logs ++ [(LogLevel.error, name)] },
                  some (-EINVAL))
          else (st1, none)

/-- One-step unfolding of `unit_file_find_dirs` in plain `if`/`match`
form. -/
theorem find_dirs_unfold (chase : Str → Str → ChaseResult)
    (original_root : Str) (cache : Option (List Str))
    (unit_path n s : Str) (st : ResolveState) :
    unit_file_find_dirs chase original_root cache unit_path n s st =
      (match
        (if cacheAllows cache (unit_path ++ str "/" ++ n ++ s) = true then
          unit_file_find_dir chase original_root
            (unit_path ++ str "/" ++ n ++ s) st
        else (st, none)) with
      | (st1, some e) => (st1, some e)
      | (st1, none) =>
          if unit_name_is_instance n = true then
            match unit_name_template n with
            | some t =>
                unit_file_find_dirs chase original_root cache unit_path
                  t s st1
            | none =>
                ({ st1 with logs := st1.logs ++ [(LogLevel.error, n)] },
                  some (-EINVAL))
          else (st1, none)) := by
  rw [unit_file_find_dirs.eq_def]
  dsimp only
  rcases hfd :
      (if cacheAllows cache (unit_path ++ str "/" ++ n ++ s) = true then
        unit_file_find_dir chase original_root
          (unit_path ++ str "/" ++ n ++ s) st
      else (st, none)) with ⟨st1, err⟩
  cases err with
  | some e => rfl
  | none =>
      dsimp only
      by_cases hi : unit_name_is_instance n = true
      · rw [dif_pos hi, if_pos hi]
        split
        · next t htm => rw [htm]
        · next htm => rw [htm]
      · rw [dif_neg hi, if_neg hi]

/-- One-step unfolding of the bounded variant at positive fuel. -/
theorem bounded_unfold (chase : Str → Str → ChaseResult)
    (original_root : Str) (cache : Option (List Str))
    (unit_path : Str) (fuel : Nat) (n s : Str) (st : ResolveState) :
    unit_file_find_dirs_bounded chase original_root cache unit_path
        (fuel + 1) n s st =
      (match
        (if cacheAllows cache (unit_path ++ str "/" ++ n ++ s) = true then
          unit_file_find_dir chase original_root
            (unit_path ++ str "/" ++ n ++ s) st
        else (st, none)) with
      | (st1, some e) => (st1, some e)
      | (st1, none) =>
          if unit_name_is_instance n = true then
            match unit_name_template n with
            | some t =>
                unit_file_find_dirs_bounded chase original_root cache
                  unit_path fuel t s st1
            | none =>
                ({ st1 with logs := st1.logs ++ [(LogLevel.error, n)] },
                  some (-EINVAL))
          else (st1, none)) := rfl

theorem find_dirs_eq_bounded_one (chase : Str → Str → ChaseResult)
    (original_root : Str) (cache : Option (List Str))
    (unit_path n s : Str) (h : unit_name_is_instance n = false)
    (st : ResolveState) :
    unit_file_find_dirs chase original_root cache unit_path n s st =
      unit_file_find_dirs_bounded chase original_root cache unit_path 1
        n s st := by
  rw [find_dirs_unfold, show (1 : Nat) = 0 + 1 from rfl, bounded_unfold]
  simp [h]

/-- Theorem: `unit_file_find_dirs` equals its depth-2-bounded variant: the
instance-to-template recursion never needs more than one extra level. -/
theorem find_dirs_eq_bounded (chase : Str → Str → ChaseResult)
    (original_root : Str) (cache : Option (List Str))
    (unit_path n s : Str) (st : ResolveState) :
    unit_file_find_dirs chase original_root cache unit_path n s st =
      unit_file_find_dirs_bounded chase original_root cache unit_path 2
        n s st := by
  by_cases hi : unit_name_is_instance n = true
  · obtain ⟨t, ht⟩ := instance_template_some hi
    have hnt := template_not_instance hi ht
    rw [find_dirs_unfold, show (2 : Nat) = 1 + 1 from rfl, bounded_unfold]
    simp only [hi, ht, if_true,
      find_dirs_eq_bounded_one chase original_root cache unit_path t s hnt]
  · rw [find_dirs_eq_bounded_one chase original_root cache unit_path n s
      (Bool.not_eq_true _ ▸ hi), show (2 : Nat) = 1 + 1 from rfl,
      bounded_unfold, show (1 : Nat) = 0 + 1 from rfl, bounded_unfold]
    simp [Bool.not_eq_true _ ▸ hi]

/-- The inner loop of `unit_file_find_dropin_paths`: one unit name tried
against every search root.  The return value of `unit_file_find_dirs` is
discarded, as in the source, where the call appears as a bare statement
inside the double `FOREACH`. -/
def find_dirs_over_roots (chase : Str → Str → ChaseResult)
    (original_root : Str) (cache : Option (List Str))
    (lookup_path : List Str) (dir_suffix : Str)
    (st : ResolveState) (name : Str) : ResolveState :=
  lookup_path.foldl
    (fun st p =>
      (unit_file_find_dirs chase original_root cache p name dir_suffix
        st).1)
    st

/-- The double loop of `unit_file_find_dropin_paths`: every unit name
against every search root, starting from the empty state. -/
def find_all_dirs (chase : Str → Str → ChaseResult)
    (original_root : Str) (cache : Option (List Str))
    (lookup_path : List Str) (dir_suffix : Str) (names : List Str) :
    ResolveState :=
  names.foldl
    (find_dirs_over_roots chase original_root cache lookup_path dir_suffix)
    initState

/-- Result of `unit_file_find_dropin_paths`: `empty` models the
`return 0` with `*ret = NULL` outcome, `found` the `return 1` outcome
carrying the aggregated file list. -/
inductive DropinResult : Type
  | empty
  | found (files : List Str)
deriving DecidableEq

/-- Function `unit_file_find_dropin_paths` from `dropin.c`.
`conf_files_list_strv` is the external aggregation collaborator
(suffix filter, then directory list); its failure is propagated after a
warning log, exactly as in the source. -/
def unit_file_find_dropin_paths (chase : Str → Str → ChaseResult)
    (original_root : Str) (lookup_path : List Str)
    (cache : Option (List Str)) (dir_suffix file_suffix : Str)
    (names : List Str)
    (conf_files_list_strv : Str → List Str → Except Int (List Str)) :
    Except Int DropinResult :=
  let st := find_all_dirs chase original_root cache lookup_path dir_suffix
    names
  if st.dirs = [] then Except.ok DropinResult.empty
  else
    match conf_files_list_strv file_suffix st.dirs with
    | Except.error e => Except.error e
    | Except.ok files => Except.ok (DropinResult.found files)

theorem find_dir_chased (chase : Str → Str → ChaseResult)
    (original_root path : Str) (st : ResolveState) :
    (unit_file_find_dir chase original_root path st).1.chased =
      st.chased ++ [path] := by
  unfold unit_file_find_dir
  rcases chase path original_root <;> rfl

theorem find_dir_dirs_mem {chase : Str → Str → ChaseResult}
    {original_root path : Str} {st : ResolveState} {d : Str}
    (h : d ∈ (unit_file_find_dir chase original_root path st).1.dirs) :
    d ∈ st.dirs ∨ chase path original_root = ChaseResult.found d := by
  unfold unit_file_find_dir at h
  rcases hc : chase path original_root <;> rw [hc] at h
  case found c =>
      simp only [List.mem_append, List.mem_singleton] at h
      rcases h with h | h
      · exact Or.inl h
      · exact Or.inr (by rw [h])
  all_goals exact Or.inl h

theorem find_dir_chased_mono {chase : Str → Str → ChaseResult}
    {original_root path : Str} {st : ResolveState} {x : Str}
    (h : x ∈ st.chased) :
    x ∈ (unit_file_find_dir chase original_root path st).1.chased := by
  rw [find_dir_chased]
  exact List.mem_append_left _ h

theorem bounded_dirs_mem {chase : Str → Str → ChaseResult}
    {original_root : Str} {cache : Option (List Str)} {unit_path : Str} :
    ∀ (fuel : Nat) (n s : Str) (st : ResolveState) (d : Str),
      d ∈ (unit_file_find_dirs_bounded chase original_root cache unit_path
        fuel n s st).1.dirs →
      d ∈ st.dirs ∨ ∃ p, chase p original_root = ChaseResult.found d := by
  intro fuel
  induction fuel with
  | zero => intro n s st d h; exact Or.inl h
  | succ fuel ih =>
      intro n s st d h
      rw [bounded_unfold] at h
      rcases hstep :
          (if cacheAllows cache (unit_path ++ str "/" ++ n ++ s) = true then
            unit_file_find_dir chase original_root
              (unit_path ++ str "/" ++ n ++ s) st
          else (st, none)) with ⟨st1, err⟩
      rw [hstep] at h
      have hst1 : ∀ d, d ∈ st1.dirs →
          d ∈ st.dirs ∨ ∃ p, chase p original_root = ChaseResult.found d := by
        intro d hd
        by_cases hca :
            cacheAllows cache (unit_path ++ str "/" ++ n ++ s) = true
        · rw [if_pos hca] at hstep
          have e1 : (unit_file_find_dir chase original_root
              (unit_path ++ str "/" ++ n ++ s) st).1 = st1 := by rw [hstep]
          rw [← e1] at hd
          rcases find_dir_dirs_mem hd with h1 | h1
          · exact Or.inl h1
          · exact Or.inr ⟨_, h1⟩
        · rw [if_neg hca] at hstep
          simp only [Prod.mk.injEq] at hstep
          rw [hstep.1]
          exact Or.inl hd
      cases err with
      | some e => exact hst1 d h
      | none =>
          dsimp only at h
          split at h
          · split at h
            · next t htm =>
                rcases ih t s st1 d h with h1 | h1
                · exact hst1 d h1
                · exact Or.inr h1
            · next htm => exact hst1 d h
          · exact hst1 d h

theorem bounded_chased_mono {chase : Str → Str → ChaseResult}
    {original_root : Str} {cache : Option (List Str)} {unit_path : Str} :
    ∀ (fuel : Nat) (n s : Str) (st : ResolveState) (x : Str),
      x ∈ st.chased →
      x ∈ (unit_file_find_dirs_bounded chase original_root cache unit_path
        fuel n s st).1.chased := by
  intro fuel
  induction fuel with
  | zero => intro n s st x h; exact h
  | succ fuel ih =>
      intro n s st x h
      rw [bounded_unfold]
      rcases hstep :
          (if cacheAllows cache (unit_path ++ str "/" ++ n ++ s) = true then
            unit_file_find_dir chase original_root
              (unit_path ++ str "/" ++ n ++ s) st
          else (st, none)) with ⟨st1, err⟩
      have hst1 : x ∈ st1.chased := by
        by_cases hca :
            cacheAllows cache (unit_path ++ str "/" ++ n ++ s) = true
        · rw [if_pos hca] at hstep
          have e1 : (unit_file_find_dir chase original_root
              (unit_path ++ str "/" ++ n ++ s) st).1 = st1 := by rw [hstep]
          rw [← e1]
          exact find_dir_chased_mono h
        · rw [if_neg hca] at hstep
          simp only [Prod.mk.injEq] at hstep
          rw [← hstep.1]
          exact h
      cases err with
      | some e => exact hst1
      | none =>
          dsimp only
          split
          · split
            · next t htm => exact ih t s st1 x hst1
            · next htm => exact hst1
          · exact hst1

theorem unhexchar_hexchar : ∀ n, n < 16 → unhexchar (hexchar n) = some n := by
  decide

/-- The escaping scheme is reversible on byte strings. -/
theorem xunescape_xescape {s : Str} (bad : Str)
    (h : ∀ c ∈ s, c.toNat < 256) :
    xunescape (xescape s bad) = some s := by
  induction s with
  | nil => rfl
  | cons c cs ih =>
      have hc : c.toNat < 256 := h c (List.mem_cons_self c cs)
      have hcs : ∀ x ∈ cs, x.toNat < 256 :=
        fun x hx => h x (List.mem_cons_of_mem c hx)
      simp only [xescape]
      by_cases he : needsEscape bad c = true
      · rw [if_pos he]
        show xunescape ('\\' :: 'x' :: hexchar (c.toNat / 16) ::
          hexchar (c.toNat % 16) :: xescape cs bad) = some (c :: cs)
        have hdiv : c.toNat / 16 < 16 := by omega
        have hmod : c.toNat % 16 < 16 := Nat.mod_lt _ (by norm_num)
        rw [xunescape.eq_def]
        dsimp only
        rw [if_pos rfl]
        rw [if_pos rfl]
        rw [unhexchar_hexchar _ hdiv, unhexchar_hexchar _ hmod, ih hcs]
        dsimp only
        have : 16 * (c.toNat / 16) + c.toNat % 16 = c.toNat :=
          Nat.div_add_mod _ _
        rw [this, Char.ofNat_toNat]
      · rw [if_neg he]
        show xunescape (c :: xescape cs bad) = some (c :: cs)
        have hcb : ¬ c = '\\' := by
          intro e
          apply he
          rw [needsEscape, e]
          simp
        rw [xunescape.eq_def]
        dsimp only
        rw [if_neg hcb, ih hcs]

/-- C1: for every dir, unit, non-negative level, and fragment name whose
escaped form is a valid filename, `drop_in_file` succeeds and returns the
containing directory `dir ++ "/" ++ unit ++ ".d"` and the fragment path
`containingDir ++ "/" ++ decimal(level) ++ "-" ++ escaped(name) ++
".conf"`.  Being a pure Lean function, `drop_in_file` is deterministic
and side-effect free by construction. -/
theorem claim_C1_drop_in_file_builds_paths
    (dir unit : Str) (level : Nat) (name : Str)
    (h : filename_is_valid (xescape name (str "/.")) = true) :
    drop_in_file dir unit level name =
      Except.ok (dir ++ str "/" ++ unit ++ str ".d",
        dir ++ str "/" ++ unit ++ str ".d" ++ str "/" ++
          (Nat.repr level).data ++ str "-" ++ xescape name (str "/.") ++
          str ".conf") := by
  unfold drop_in_file
  dsimp only
  rw [if_pos h]

theorem claim_C1_witness :
    filename_is_valid (xescape (str "override") (str "/.")) = true ∧
    drop_in_file (str "/etc/systemd/system") (str "nginx.service") 50
        (str "override") =
      Except.ok (str "/etc/systemd/system/nginx.service.d",
        str "/etc/systemd/system/nginx.service.d/50-override.conf") := by
  refine ⟨by decide, ?_⟩
  rw [claim_C1_drop_in_file_builds_paths (str "/etc/systemd/system")
    (str "nginx.service") 50 (str "override") (by decide)]
  rfl

/-- C3: whenever `drop_in_file` succeeds on a (byte-string) fragment name
containing `'/'` or `'.'`, the escaped-name portion of the final path
component of the returned file path — the part between the level prefix
and the `".conf"` suffix — unescapes back to `name` exactly. -/
theorem claim_C3_escaping_roundtrip
    (dir unit : Str) (level : Nat) (name : Str) (p q : Str)
    (hbyte : ∀ c ∈ name, c.toNat < 256)
    (hsep : '/' ∈ name ∨ '.' ∈ name)
    (hok : drop_in_file dir unit level name = Except.ok (p, q)) :
    q = p ++ str "/" ++ (Nat.repr level).data ++ str "-" ++
        xescape name (str "/.") ++ str ".conf" ∧
    xunescape (xescape name (str "/.")) = some name := by
  refine ⟨?_, xunescape_xescape (str "/.") hbyte⟩
  unfold drop_in_file at hok
  dsimp only at hok
  split at hok
  · simp only [Except.ok.injEq, Prod.mk.injEq] at hok
    rw [← hok.2, ← hok.1]
  · exact absurd hok (by simp)

theorem claim_C3_witness :
    (∀ c ∈ str "a/b.conf", c.toNat < 256) ∧
    ('/' ∈ str "a/b.conf" ∨ '.' ∈ str "a/b.conf") ∧
    (str "/run" ++ str "/" ++ str "u.service" ++ str ".d") ++ str "/" ++
        (Nat.repr 10).data ++ str "-" ++
        xescape (str "a/b.conf") (str "/.") ++ str ".conf" =
      (str "/run" ++ str "/" ++ str "u.service" ++ str ".d") ++ str "/" ++
        (Nat.repr 10).data ++ str "-" ++ xescape (str "a/b.conf")
          (str "/.") ++ str ".conf" ∧
    xunescape (xescape (str "a/b.conf") (str "/.")) =
      some (str "a/b.conf") := by
  refine ⟨by decide, by decide, ?_, ?_⟩
  · exact (claim_C3_escaping_roundtrip (str "/run") (str "u.service") 10
      (str "a/b.conf") _ _ (by decide) (by decide) (by rfl)).1
  · exact (claim_C3_escaping_roundtrip (str "/run") (str "u.service") 10
      (str "a/b.conf") _ _ (by decide) (by decide) (by rfl)).2

/-- C4: whenever the escaped form of the fragment name is not a valid
filename component, `drop_in_file` fails with `-EINVAL` and produces no
path. -/
theorem claim_C4_invalid_escaped_name_einval
    (dir unit : Str) (level : Nat) (name : Str)
    (h : filename_is_valid (xescape name (str "/.")) = false) :
    drop_in_file dir unit level name = Except.error (-EINVAL) := by
  unfold drop_in_file
  dsimp only
  rw [h]
  rw [if_neg Bool.false_ne_true]

theorem claim_C4_witness :
    filename_is_valid (xescape (str "") (str "/.")) = false ∧
    drop_in_file (str "/etc") (str "u.service") 50 (str "") =
      Except.error (-EINVAL) := by
  exact ⟨by decide, claim_C4_invalid_escaped_name_einval (str "/etc")
    (str "u.service") 50 (str "") (by decide)⟩

/-- C10: once path construction succeeds, `write_drop_in` ignores the
result of directory creation entirely — its result is exactly the result
of the atomic write primitive on the fragment path, for any behaviour of
the `mkdir_p` collaborator. -/
theorem claim_C10_mkdir_failure_ignored
    (m1 m2 : Str → Int) (w : Str → Str → Int)
    (dir unit : Str) (level : Nat) (name data : Str) (p q : Str)
    (hok : drop_in_file dir unit level name = Except.ok (p, q)) :
    write_drop_in m1 w dir unit level name data = w q data ∧
    write_drop_in m1 w dir unit level name data =
      write_drop_in m2 w dir unit level name data := by
  unfold write_drop_in
  rw [hok]
  exact ⟨rfl, rfl⟩

theorem claim_C10_witness :
    drop_in_file (str "/etc") (str "u.service") 7 (str "x") =
      Except.ok (str "/etc/u.service.d", str "/etc/u.service.d/7-x.conf") ∧
    write_drop_in (fun _ => -13) (fun _ _ => 0) (str "/etc")
        (str "u.service") 7 (str "x") (str "data") = 0 ∧
    write_drop_in (fun _ => -13) (fun _ _ => 0) (str "/etc")
        (str "u.service") 7 (str "x") (str "data") =
      write_drop_in (fun _ => 0) (fun _ _ => 0) (str "/etc")
        (str "u.service") 7 (str "x") (str "data") := by
  refine ⟨by rfl, ?_, ?_⟩
  · exact (claim_C10_mkdir_failure_ignored (fun _ => -13) (fun _ => 0)
      (fun _ _ => 0) (str "/etc") (str "u.service") 7 (str "x")
      (str "data") _ _ (by rfl)).1
  · exact (claim_C10_mkdir_failure_ignored (fun _ => -13) (fun _ => 0)
      (fun _ _ => 0) (str "/etc") (str "u.service") 7 (str "x")
      (str "data") _ _ (by rfl)).2

/-- C8: the instance-to-template recursion of `unit_file_find_dirs`
terminates for every unit name with depth statically bounded by 2: a
template name derived from an instance name is never itself a valid
instance name, and consequently the function coincides with its
depth-2 fuel-bounded variant on all inputs. -/
theorem claim_C8_recursion_depth_two :
    (∀ n t : Str, unit_name_is_instance n = true →
      unit_name_template n = some t → unit_name_is_instance t = false) ∧
    (∀ (chase : Str → Str → ChaseResult) (original_root : Str)
      (cache : Option (List Str)) (unit_path n s : Str)
      (st : ResolveState),
      unit_file_find_dirs chase original_root cache unit_path n s st =
        unit_file_find_dirs_bounded chase original_root cache unit_path 2
          n s st) :=
  ⟨fun _ _ h ht => template_not_instance h ht,
   fun chase root cache up n s st =>
     find_dirs_eq_bounded chase root cache up n s st⟩

theorem claim_C8_witness :
    unit_name_is_instance (str "getty@tty1.service") = true ∧
    unit_name_template (str "getty@tty1.service") =
      some (str "getty@.service") ∧
    unit_name_is_instance (str "getty@.service") = false :=
  ⟨by decide, by decide,
   claim_C8_recursion_depth_two.1 (str "getty@tty1.service")
     (str "getty@.service") (by decide) (by decide)⟩

/-- C2: for a valid instance name, resolution also checks the directory
derived from the template name under the same root and suffix: when the
instance candidate directory does not exist but the template candidate
canonicalizes successfully (the cache allowing both), the canonicalized
template directory is included in the resolved directories. -/
theorem claim_C2_template_fallback
    (chase : Str → Str → ChaseResult) (original_root : Str)
    (cache : Option (List Str)) (unit_path n s t c : Str)
    (st : ResolveState)
    (hinst : unit_name_is_instance n = true)
    (ht : unit_name_template n = some t)
    (hca1 : cacheAllows cache (unit_path ++ str "/" ++ n ++ s) = true)
    (hca2 : cacheAllows cache (unit_path ++ str "/" ++ t ++ s) = true)
    (hc1 : chase (unit_path ++ str "/" ++ n ++ s) original_root =
      ChaseResult.enoent)
    (hc2 : chase (unit_path ++ str "/" ++ t ++ s) original_root =
      ChaseResult.found c) :
    c ∈ (unit_file_find_dirs chase original_root cache unit_path n s
      st).1.dirs := by
  have hnt := template_not_instance hinst ht
  rw [find_dirs_unfold, if_pos hca1]
  simp only [unit_file_find_dir, hc1]
  simp only [hinst, if_true, ht]
  rw [find_dirs_unfold, if_pos hca2]
  simp only [unit_file_find_dir, hc2]
  simp only [hnt, Bool.false_eq_true, if_false]
  simp

/-- Concrete canonicalizer for witnesses: only the template drop-in
directory `foo@.service.d` exists. -/
def chaseC2 : Str → Str → ChaseResult := fun p _ =>
  if p = str "/etc/systemd/system/foo@.service.d" then
    ChaseResult.found (str "/etc/systemd/system/foo@.service.d")
  else ChaseResult.enoent

theorem claim_C2_witness :
    str "/etc/systemd/system/foo@.service.d" ∈
      (unit_file_find_dirs chaseC2 (str "") none
        (str "/etc/systemd/system") (str "foo@bar.service") (str ".d")
        initState).1.dirs :=
  claim_C2_template_fallback chaseC2 (str "") none
    (str "/etc/systemd/system") (str "foo@bar.service") (str ".d")
    (str "foo@.service") (str "/etc/systemd/system/foo@.service.d")
    initState (by decide) (by decide) (by rfl) (by rfl) (by decide)
    (by decide)

theorem over_roots_dirs_mem {chase : Str → Str → ChaseResult}
    {original_root : Str} {cache : Option (List Str)} {dsuf : Str} :
    ∀ (lookup : List Str) (st : ResolveState) (name d : Str),
      d ∈ (find_dirs_over_roots chase original_root cache lookup dsuf st
        name).dirs →
      d ∈ st.dirs ∨ ∃ p, chase p original_root = ChaseResult.found d := by
  intro lookup
  induction lookup with
  | nil => intro st name d h; exact Or.inl h
  | cons r rs ih =>
      intro st name d h
      have hrw : find_dirs_over_roots chase original_root cache (r :: rs)
          dsuf st name =
        find_dirs_over_roots chase original_root cache rs dsuf
          ((unit_file_find_dirs chase original_root cache r name dsuf
            st).1) name := rfl
      rw [hrw] at h
      rcases ih _ name d h with h1 | h1
      · rw [find_dirs_eq_bounded] at h1
        exact bounded_dirs_mem 2 name dsuf st d h1
      · exact Or.inr h1

theorem fold_names_dirs_mem {chase : Str → Str → ChaseResult}
    {original_root : Str} {cache : Option (List Str)}
    {lookup : List Str} {dsuf : Str} :
    ∀ (names : List Str) (st : ResolveState) (d : Str),
      d ∈ (names.foldl
        (find_dirs_over_roots chase original_root cache lookup dsuf)
        st).dirs →
      d ∈ st.dirs ∨ ∃ p, chase p original_root = ChaseResult.found d := by
  intro names
  induction names with
  | nil => intro st d h; exact Or.inl h
  | cons nm ns ih =>
      intro st d h
      rw [List.foldl_cons] at h
      rcases ih _ d h with h1 | h1
      · exact over_roots_dirs_mem lookup st nm d h1
      · exact Or.inr h1

/-- C9: every directory in the resolved-directories list of one
resolution call is the canonicalized form of some path on which the
symlink-resolving canonicalizer succeeded; candidates whose
canonicalization did not succeed never appear. -/
theorem claim_C9_dirs_are_canonicalized
    (chase : Str → Str → ChaseResult) (original_root : Str)
    (cache : Option (List Str)) (lookup : List Str) (dsuf : Str)
    (names : List Str) (d : Str)
    (h : d ∈ (find_all_dirs chase original_root cache lookup dsuf
      names).dirs) :
    ∃ p, chase p original_root = ChaseResult.found d := by
  unfold find_all_dirs at h
  rcases fold_names_dirs_mem names initState d h with h1 | h1
  · exact absurd h1 (by simp [initState])
  · exact h1

theorem claim_C9_witness :
    ∃ p, chaseC2 p (str "") =
      ChaseResult.found (str "/etc/systemd/system/foo@.service.d") :=
  claim_C9_dirs_are_canonicalized chaseC2 (str "") none
    [str "/etc/systemd/system"] (str ".d") [str "foo@bar.service"]
    (str "/etc/systemd/system/foo@.service.d")
    (by
      simp only [find_all_dirs, find_dirs_over_roots, List.foldl_cons,
        List.foldl_nil, find_dirs_eq_bounded]
      decide)

theorem dropin_paths_empty_of_dirs_nil (chase : Str → Str → ChaseResult)
    (original_root : Str) (lookup : List Str) (cache : Option (List Str))
    (dsuf fsuf : Str) (names : List Str)
    (conf : Str → List Str → Except Int (List Str))
    (h : (find_all_dirs chase original_root cache lookup dsuf
      names).dirs = []) :
    unit_file_find_dropin_paths chase original_root lookup cache dsuf
      fsuf names conf = Except.ok DropinResult.empty := by
  unfold unit_file_find_dropin_paths
  dsimp only
  rw [if_pos h]

theorem find_all_dirs_nil_lookup (chase : Str → Str → ChaseResult)
    (original_root : Str) (cache : Option (List Str)) (dsuf : Str)
    (names : List Str) :
    find_all_dirs chase original_root cache [] dsuf names = initState := by
  unfold find_all_dirs
  induction names with
  | nil => rfl
  | cons nm ns ih => exact ih

/-- C6: when no candidate override directory is found — in particular for
an empty lookup path or an empty set of unit names —
`unit_file_find_dropin_paths` returns the successful empty result
(`return 0` with NULL list), never an error; and that outcome is a
different value from the `return 1` outcome carrying found files. -/
theorem claim_C6_empty_result_is_success
    (chase : Str → Str → ChaseResult) (original_root : Str)
    (lookup : List Str) (cache : Option (List Str)) (dsuf fsuf : Str)
    (names : List Str)
    (conf : Str → List Str → Except Int (List Str)) :
    ((find_all_dirs chase original_root cache lookup dsuf names).dirs =
        [] →
      unit_file_find_dropin_paths chase original_root lookup cache dsuf
        fsuf names conf = Except.ok DropinResult.empty) ∧
    (names = [] ∨ lookup = [] →
      unit_file_find_dropin_paths chase original_root lookup cache dsuf
        fsuf names conf = Except.ok DropinResult.empty) ∧
    (∀ files, (Except.ok DropinResult.empty : Except Int DropinResult) ≠
      Except.ok (DropinResult.found files)) := by
  refine ⟨?_, ?_, ?_⟩
  · exact dropin_paths_empty_of_dirs_nil chase original_root lookup cache
      dsuf fsuf names conf
  · rintro (h | h)
    · subst h
      exact dropin_paths_empty_of_dirs_nil chase original_root lookup
        cache dsuf fsuf [] conf rfl
    · subst h
      exact dropin_paths_empty_of_dirs_nil chase original_root [] cache
        dsuf fsuf names conf
        (by rw [find_all_dirs_nil_lookup]; rfl)
  · intro files hne
    simp at hne

theorem claim_C6_witness :
    unit_file_find_dropin_paths chaseC2 (str "") [] none (str ".d")
        (str ".conf") [str "a.service"]
        (fun _ ds => Except.ok ds) = Except.ok DropinResult.empty :=
  (claim_C6_empty_result_is_success chaseC2 (str "") [] none (str ".d")
    (str ".conf") [str "a.service"] (fun _ ds => Except.ok ds)).2.1
    (Or.inr rfl)

/-- C5: with a `pathCache` supplied, the canonicalizing existence check
on a candidate path is performed if and only if the candidate is present
in the cache: a cached candidate is handed to the canonicalizer, an
uncached candidate is skipped without error and without contributing a
directory (resolution proceeds directly to the template step), and with
no cache supplied every candidate is checked. -/
theorem claim_C5_cache_is_allowlist
    (chase : Str → Str → ChaseResult) (original_root : Str)
    (cs : List Str) (unit_path n s : Str) (st : ResolveState) :
    ((unit_path ++ str "/" ++ n ++ s) ∈ cs →
      (unit_path ++ str "/" ++ n ++ s) ∈
        (unit_file_find_dirs chase original_root (some cs) unit_path n s
          st).1.chased) ∧
    ((unit_path ++ str "/" ++ n ++ s) ∉ cs →
      unit_file_find_dirs chase original_root (some cs) unit_path n s st =
        (if unit_name_is_instance n = true then
          match unit_name_template n with
          | some t =>
              unit_file_find_dirs chase original_root (some cs) unit_path
                t s st
          | none =>
              ({ st with logs := st.logs ++ [(LogLevel.error, n)] },
                some (-EINVAL))
        else (st, none))) ∧
    ((unit_path ++ str "/" ++ n ++ s) ∈
      (unit_file_find_dirs chase original_root none unit_path n s
        st).1.chased) := by
  refine ⟨?_, ?_, ?_⟩
  · intro hm
    have hca : cacheAllows (some cs) (unit_path ++ str "/" ++ n ++ s) =
        true := by
      simp only [cacheAllows, decide_eq_true_eq]
      exact hm
    rw [find_dirs_eq_bounded, show (2 : Nat) = 1 + 1 from rfl,
      bounded_unfold, if_pos hca]
    rcases hfd : unit_file_find_dir chase original_root
        (unit_path ++ str "/" ++ n ++ s) st with ⟨st1, err⟩
    have e1 : (unit_file_find_dir chase original_root
        (unit_path ++ str "/" ++ n ++ s) st).1 = st1 := by rw [hfd]
    have hpath : (unit_path ++ str "/" ++ n ++ s) ∈ st1.chased := by
      rw [← e1, find_dir_chased]
      simp
    cases err with
    | some e => exact hpath
    | none =>
        dsimp only
        split
        · split
          · next t htm => exact bounded_chased_mono 1 t s st1 _ hpath
          · next htm => exact hpath
        · exact hpath
  · intro hm
    have hca : cacheAllows (some cs) (unit_path ++ str "/" ++ n ++ s) =
        false := by
      simp only [cacheAllows, decide_eq_false_iff_not]
      exact hm
    rw [find_dirs_unfold, hca]
    rw [if_neg Bool.false_ne_true]
  · have hca : cacheAllows none (unit_path ++ str "/" ++ n ++ s) =
        true := rfl
    rw [find_dirs_eq_bounded, show (2 : Nat) = 1 + 1 from rfl,
      bounded_unfold, if_pos hca]
    rcases hfd : unit_file_find_dir chase original_root
        (unit_path ++ str "/" ++ n ++ s) st with ⟨st1, err⟩
    have e1 : (unit_file_find_dir chase original_root
        (unit_path ++ str "/" ++ n ++ s) st).1 = st1 := by rw [hfd]
    have hpath : (unit_path ++ str "/" ++ n ++ s) ∈ st1.chased := by
      rw [← e1, find_dir_chased]
      simp
    cases err with
    | some e => exact hpath
    | none =>
        dsimp only
        split
        · split
          · next t htm => exact bounded_chased_mono 1 t s st1 _ hpath
          · next htm => exact hpath
        · exact hpath

theorem claim_C5_witness :
    (str "/etc" ++ str "/" ++ str "u.service" ++ str ".d" ∈
        [str "/etc/u.service.d"] ∧
      str "/etc" ++ str "/" ++ str "u.service" ++ str ".d" ∈
        (unit_file_find_dirs chaseC2 (str "")
          (some [str "/etc/u.service.d"]) (str "/etc") (str "u.service")
          (str ".d") initState).1.chased) ∧
    (str "/etc" ++ str "/" ++ str "u.service" ++ str ".d" ∉
        ([] : List Str) ∧
      unit_file_find_dirs chaseC2 (str "") (some []) (str "/etc")
          (str "u.service") (str ".d") initState = (initState, none)) ∧
    str "/etc" ++ str "/" ++ str "u.service" ++ str ".d" ∈
      (unit_file_find_dirs chaseC2 (str "") none (str "/etc")
        (str "u.service") (str ".d") initState).1.chased := by
  refine ⟨⟨by decide, ?_⟩, ⟨by decide, ?_⟩, ?_⟩
  · exact (claim_C5_cache_is_allowlist chaseC2 (str "")
      [str "/etc/u.service.d"] (str "/etc") (str "u.service") (str ".d")
      initState).1 (by decide)
  · rw [(claim_C5_cache_is_allowlist chaseC2 (str "") [] (str "/etc")
      (str "u.service") (str ".d") initState).2.1 (by decide)]
    rfl
  · exact (claim_C5_cache_is_allowlist chaseC2 (str "") [] (str "/etc")
      (str "u.service") (str ".d") initState).2.2

/-- Concrete canonicalizer for C7: the instance candidate directory
fails with a generic error (-EACCES) while the template candidate
directory exists. -/
def chaseC7 : Str → Str → ChaseResult := fun p _ =>
  if p = str "/etc/a@b.service.d" then ChaseResult.otherError (-13)
  else if p = str "/etc/a@.service.d" then
    ChaseResult.found (str "/etc/a@.service.d")
  else ChaseResult.enoent

/-- C7 (counterexample): contrary to the claim, a warning-level
canonicalization error on the instance candidate does prevent the
template-directory check for that same (root, unit-name) pair: with an
instance name whose own candidate fails with a generic error while the
template candidate would be found, the template candidate is never
handed to the canonicalizer and no directory is collected. -/
theorem claim_C7_counterexample :
    unit_name_is_instance (str "a@b.service") = true ∧
    chaseC7 (str "/etc/a@b.service.d") (str "") =
      ChaseResult.otherError (-13) ∧
    chaseC7 (str "/etc/a@.service.d") (str "") =
      ChaseResult.found (str "/etc/a@.service.d") ∧
    str "/etc/a@.service.d" ∉
      (unit_file_find_dirs chaseC7 (str "") none (str "/etc")
        (str "a@b.service") (str ".d") initState).1.chased ∧
    (unit_file_find_dirs chaseC7 (str "") none (str "/etc")
      (str "a@b.service") (str ".d") initState).1.dirs = [] := by
  refine ⟨by decide, by decide, by decide, ?_, ?_⟩
  · simp only [find_dirs_eq_bounded]
    decide
  · simp only [find_dirs_eq_bounded]
    decide

/-- C7 (amended): per-pair canonicalization outcomes are handled as a
three-way policy — not-found is skipped silently, name-too-long is
skipped with a debug log, and any other error is logged at warning level
and returned from `unit_file_find_dir`, which aborts the
template-directory check for that same (root, unit-name) pair; but the
per-pair return value is discarded at the top level, so the remaining
pairs are still processed, and only failures of the final aggregation
step propagate from `unit_file_find_dropin_paths` to the caller. -/
theorem claim_C7_amended (chase : Str → Str → ChaseResult)
    (original_root path : Str) (st : ResolveState) (e : Int)
    (cache : Option (List Str)) (lookup : List Str) (dsuf fsuf : Str)
    (names1 names2 : List Str)
    (conf : Str → List Str → Except Int (List Str)) :
    (chase path original_root = ChaseResult.enoent →
      unit_file_find_dir chase original_root path st =
        ({ st with chased := st.chased ++ [path] }, none)) ∧
    (chase path original_root = ChaseResult.enametoolong →
      unit_file_find_dir chase original_root path st =
        ({ st with
            chased := st.chased ++ [path]
            logs := st.logs ++ [(LogLevel.debug, path)] }, none)) ∧
    (chase path original_root = ChaseResult.otherError e →
      unit_file_find_dir chase original_root path st =
        ({ st with
            chased := st.chased ++ [path]
            logs := st.logs ++ [(LogLevel.warning, path)] }, some e)) ∧
    (find_all_dirs chase original_root cache lookup dsuf
        (names1 ++ names2) =
      names2.foldl
        (find_dirs_over_roots chase original_root cache lookup dsuf)
        (find_all_dirs chase original_root cache lookup dsuf names1)) ∧
    (∀ e2 : Int,
      unit_file_find_dropin_paths chase original_root lookup cache dsuf
        fsuf names1 conf = Except.error e2 →
      conf fsuf (find_all_dirs chase original_root cache lookup dsuf
        names1).dirs = Except.error e2) := by
  refine ⟨?_, ?_, ?_, ?_, ?_⟩
  · intro h
    unfold unit_file_find_dir
    rw [h]
  · intro h
    unfold unit_file_find_dir
    rw [h]
  · intro h
    unfold unit_file_find_dir
    rw [h]
  · unfold find_all_dirs
    rw [List.foldl_append]
  · intro e2 h
    unfold unit_file_find_dropin_paths at h
    dsimp only at h
    split at h
    · exact absurd h (by simp)
    · rcases hconf : conf fsuf (find_all_dirs chase original_root cache
          lookup dsuf names1).dirs with e' | files
      · rw [hconf] at h
        dsimp only at h
        injection h with he
        rw [he]
      · rw [hconf] at h
        simp at h

/-- Canonicalizer for the C7 amended witness: every candidate resolves. -/
def chaseAll : Str → Str → ChaseResult := fun _ _ =>
  ChaseResult.found (str "/d")

/-- Aggregation collaborator for the C7 amended witness: always fails. -/
def confFail : Str → List Str → Except Int (List Str) := fun _ _ =>
  Except.error (-5)

theorem claim_C7_amended_witness :
    (chaseC7 (str "/etc/a@b.service.d") (str "") =
        ChaseResult.otherError (-13) ∧
      unit_file_find_dir chaseC7 (str "") (str "/etc/a@b.service.d")
          initState =
        ({ initState with
            chased := initState.chased ++ [str "/etc/a@b.service.d"]
            logs := initState.logs ++
              [(LogLevel.warning, str "/etc/a@b.service.d")] },
          some (-13))) ∧
    (unit_file_find_dropin_paths chaseAll (str "") [str "/x"] none
        (str ".d") (str ".conf") [str "u.service"] confFail =
      Except.error (-5) ∧
      confFail (str ".conf") (find_all_dirs chaseAll (str "") none
        [str "/x"] (str ".d") [str "u.service"]).dirs =
        Except.error (-5)) := by
  have heval : unit_file_find_dropin_paths chaseAll (str "") [str "/x"]
      none (str ".d") (str ".conf") [str "u.service"] confFail =
      Except.error (-5) := by
    simp only [unit_file_find_dropin_paths, find_all_dirs,
      find_dirs_over_roots, List.foldl_cons, List.foldl_nil,
      find_dirs_eq_bounded]
    rfl
  refine ⟨⟨by decide, ?_⟩, heval, ?_⟩
  · exact (claim_C7_amended chaseC7 (str "") (str "/etc/a@b.service.d")
      initState (-13) none [] (str "") (str "") [] [] confFail).2.2.1
      (by decide)
  · exact (claim_C7_amended chaseAll (str "") (str "") initState 0 none
      [str "/x"] (str ".d") (str ".conf") [str "u.service"] []
      confFail).2.2.2.2 (-5) heval
